import Mathlib

/-!
Shallow embedding of the go-felica FeliCa Lite-S key-derivation, MAC and
authenticated read/write code (package `felica`, file felica_pcsc.go).

Bytes are modelled as `Nat` with explicit `% 256` where the Go `byte`
arithmetic wraps; fixed-size Go buffers (`[8]byte`, `[16]byte`, `[24]byte`)
become `List Nat`; the triple-DES cipher from `crypto/des` is an external
library, so it is abstracted as a parameter
`E : List Nat → List Nat → List Nat` (24-byte key → 8-byte block → 8-byte
block), exactly the shape of `des.NewTripleDESCipher(k).Encrypt`.
-/

namespace Felica

/-- Go helper `xor(a, b)`: `a[i] = a[i] ^ b[i]` for `i < len(a)`
(buffers have equal length at every call site). -/
def xorB (a b : List Nat) : List Nat := List.zipWith (fun x y => x ^^^ y) a b

/-- Block address constants from the source. -/
def AddressID : Nat := 0x82

def AddressCKV : Nat := 0x86

def AddressWCNT : Nat := 0x90

def AddressMAC_A : Nat := 0x91

/-- Go `Block`: a 1-byte address and a 16-byte payload. -/
structure Block where
  Address : Nat
  Data : List Nat
deriving DecidableEq, Repr

deriving instance DecidableEq for Except

/-- Error values declared at the top of the source file. -/
inductive FErr where
  | noResponse
  | unknown
  | masterKeyNil
  | macNotMatched
deriving DecidableEq, Repr

/-- The doubling step of `GenCardKey` (lines 481-489), unrolled for the
fixed `des.BlockSize = 8`.  Each loop iteration `i < 7` executes
`L[i] = L[i] << 1; L[i] = L[i] & (L[i+1] >> 7)` — note the `&` — reading
the not-yet-modified `L[i+1]`; then `L[7] = L[7] << 1`, and `0x1b` is
XORed into `L[7]` when `LMSB = L[0] & 0x80` was nonzero.  The non-8-byte
fallback never occurs in the program (the buffer is always 8 bytes). -/
def doubleStep : List Nat → List Nat
  | [b0, b1, b2, b3, b4, b5, b6, b7] =>
    let lmsb := b0 &&& (1 <<< 7)
    [((b0 <<< 1) % 256) &&& (b1 >>> 7),
     ((b1 <<< 1) % 256) &&& (b2 >>> 7),
     ((b2 <<< 1) % 256) &&& (b3 >>> 7),
     ((b3 <<< 1) % 256) &&& (b4 >>> 7),
     ((b4 <<< 1) % 256) &&& (b5 >>> 7),
     ((b5 <<< 1) % 256) &&& (b6 >>> 7),
     ((b6 <<< 1) % 256) &&& (b7 >>> 7),
     if lmsb ≠ 0 then ((b7 <<< 1) % 256) ^^^ 0x1b else (b7 <<< 1) % 256]
  | l => l

/-- Modelled from the spec: `double_gf(buf)` as section 4.1 words it —
left-shift across all bytes with the carry from byte `i+1`'s top bit
entering byte `i`'s bottom bit (an OR), `0x1b` XORed into the last byte
when the original most-significant bit was set. -/
def double_gf : List Nat → List Nat
  | [b0, b1, b2, b3, b4, b5, b6, b7] =>
    let lmsb := b0 &&& (1 <<< 7)
    [((b0 <<< 1) % 256) ||| (b1 >>> 7),
     ((b1 <<< 1) % 256) ||| (b2 >>> 7),
     ((b2 <<< 1) % 256) ||| (b3 >>> 7),
     ((b3 <<< 1) % 256) ||| (b4 >>> 7),
     ((b4 <<< 1) % 256) ||| (b5 >>> 7),
     ((b5 <<< 1) % 256) ||| (b6 >>> 7),
     ((b6 <<< 1) % 256) ||| (b7 >>> 7),
     if lmsb ≠ 0 then ((b7 <<< 1) % 256) ^^^ 0x1b else (b7 <<< 1) % 256]
  | l => l

/-- `(*Card).GenCardKey` (lines 473-505).  `cipher` is the triple-DES
cipher built directly from the 24-byte master key; `C1` is computed and
discarded exactly as in the source. -/
def GenCardKey (E : List Nat → List Nat → List Nat)
    (masterKey id : List Nat) : List Nat :=
  let cipher := E masterKey
  let L := cipher (List.replicate 8 0)
  let L := doubleStep L
  let M1 := id.take 8
  let M2 := id.drop 8
  let M2 := xorB M2 L
  let C1 := cipher M1
  let T1 := cipher M1
  let M1 := M1.set 0 (M1.getD 0 0 ^^^ 0x80)
  let C2 := cipher M1
  let C2 := xorB C2 M2
  let T2 := cipher C2
  let _ := C1
  T1 ++ T2

/-- `(*Card).GenSessionKey` (lines 508-532): reverse CK, build the
24-byte key `ck[8:] ‖ ck[:8] ‖ ck[8:]`, then two chained encryptions of
the reversed halves of RC, each result byte-reversed into the output. -/
def GenSessionKey (E : List Nat → List Nat → List Nat)
    (CK RC : List Nat) : List Nat :=
  let ck := CK.reverse
  let k := ck.drop 8 ++ ck.take 8 ++ ck.drop 8
  let cipher := E k
  let data1 := (RC.take 8).reverse
  let data2 := cipher data1
  let res1 := data2.reverse
  let data2x := xorB data2 (RC.drop 8).reverse
  let data1x := cipher data2x
  let res2 := data1x.reverse
  res1 ++ res2

/-- `(*Card).GenMac` (lines 563-584): reverse SK, build the 24-byte key
`sk[8:] ‖ sk[:8] ‖ sk[8:]`, start the chain from `reverse(rc[:8])`, and
for each 8-byte chunk `v` set `chain = encrypt(chain XOR reverse(v))`;
the returned MAC is the final chain reversed. -/
def GenMac (E : List Nat → List Nat → List Nat)
    (SK RC : List Nat) (data : List (List Nat)) : List Nat :=
  let sk := SK.reverse
  let k := sk.drop 8 ++ sk.take 8 ++ sk.drop 8
  let cipher := E k
  let chain0 := (RC.take 8).reverse
  (data.foldl (fun data1 v => cipher (xorB data1 v.reverse)) chain0).reverse

/-- The first loop of `GenReadMac` (lines 538-541): `data[0][2*i] =
blocks[i].Address; data[0][2*i+1] = 0x00` for every block.  `List.set`
ignores an out-of-range index where the Go array write would panic; the
in-bounds condition is characterised separately. -/
def setDescLoop (d : List Nat) (i : Nat) : List Block → List Nat
  | [] => d
  | b :: rest => setDescLoop ((d.set (2 * i) b.Address).set (2 * i + 1) 0x00) (i + 1) rest

/-- `(*Card).GenReadMac` (lines 535-550): descriptor initialised to
eight `0xFF` bytes and overwritten per block, then the two halves of
each block before the first `AddressMAC_A` block. -/
def GenReadMac (E : List Nat → List Nat → List Nat)
    (SK RC : List Nat) (blocks : List Block) : List Nat :=
  let d0 := setDescLoop (List.replicate 8 0xFF) 0 blocks
  let chunks := (blocks.takeWhile (fun v => v.Address ≠ AddressMAC_A)).flatMap
    (fun v => [v.Data.take 8, v.Data.drop 8])
  GenMac E SK RC (d0 :: chunks)

/-- `(*Card).GenWriteMac` (lines 553-560). -/
def GenWriteMac (E : List Nat → List Nat → List Nat)
    (SK RC : List Nat) (wcnt : List Nat) (block : Block) : List Nat :=
  GenMac E SK RC
    [[wcnt.getD 0 0, wcnt.getD 1 0, wcnt.getD 2 0, 0x00, block.Address, 0x00, 0x91, 0x00],
     block.Data.take 8, block.Data.drop 8]

/-- The response status branch shared by every transmit site:
`resp[len(resp)-2] == 0x90 && resp[len(resp)-1] == 0x00`. -/
def statusOk (resp : List Nat) : Prop :=
  resp.getD (resp.length - 2) 0 = 0x90 ∧ resp.getD (resp.length - 1) 0 = 0x00

instance (resp : List Nat) : Decidable (statusOk resp) := by
  unfold statusOk; infer_instance

/-- `resp[len(resp)-2] == 0x64 && resp[len(resp)-1] == 0x01`. -/
def statusNoResponse (resp : List Nat) : Prop :=
  resp.getD (resp.length - 2) 0 = 0x64 ∧ resp.getD (resp.length - 1) 0 = 0x01

instance (resp : List Nat) : Decidable (statusNoResponse resp) := by
  unfold statusNoResponse; infer_instance

/-- The read command frame built in `(*Card).Read` (lines 361-368). -/
def ReadCommand (address : List Nat) : List Nat :=
  let blockList := address.flatMap (fun v => [0x80, v])
  [0xFF, 0xB0, 0x80, address.length % 256, blockList.length % 256] ++ blockList ++ [0x00]

/-- The success branch of `(*Card).Read` (lines 374-381): one block per
requested address, its payload `resp[i*16:(i+1)*16]`. -/
def readParse (address resp : List Nat) : List Block :=
  (List.range address.length).map
    (fun i => ⟨address.getD i 0, (resp.drop (i * 16)).take 16⟩)

/-- `(*Card).Read` (lines 360-387) over an abstract transport
`tr : command → response` standing for `c.Card.Transmit`. -/
def Read (tr : List Nat → List Nat) (address : List Nat) : Except FErr (List Block) :=
  let resp := tr (ReadCommand address)
  if statusOk resp then Except.ok (readParse address resp)
  else if statusNoResponse resp then Except.error FErr.noResponse
  else Except.error FErr.unknown

/-- `(*Card).ReadWithMac` (lines 390-401).  The Go function returns the
pair `([]Block, error)`; `(none, some e)` models `(nil, err)` and
`(some resp, e?)` models returning the read data with or without
`ErrMacNotMatched`. -/
def ReadWithMac (E : List Nat → List Nat → List Nat) (SK RC : List Nat)
    (tr : List Nat → List Nat) (address : List Nat) :
    Option (List Block) × Option FErr :=
  match Read tr (address ++ [AddressMAC_A]) with
  | Except.error e => (none, some e)
  | Except.ok resp =>
    let mac := GenReadMac E SK RC resp
    if mac = ((resp.getLast?.getD ⟨0, []⟩).Data.take 8) then (some resp, none)
    else (some resp, some FErr.macNotMatched)

/-- The write command frame built in `(*Card).Write` (lines 404-416). -/
def WriteCommand (data : List Block) : List Nat :=
  let blockList := data.flatMap (fun v => [0x80, v.Address])
  let dataArr := data.flatMap (fun v => v.Data)
  [0xFF, 0xD6, 0x80, data.length % 256, (blockList.length + dataArr.length) % 256]
    ++ blockList ++ dataArr ++ [0x00]

/-- `(*Card).Write` (lines 403-429). -/
def Write (tr : List Nat → List Nat) (data : List Block) : Option FErr :=
  let resp := tr (WriteCommand data)
  if statusOk resp then none
  else if statusNoResponse resp then some FErr.noResponse
  else some FErr.unknown

/-- `(*Card).WriteWithMac` (lines 431-443): authenticated read of the
write counter, write MAC over `(wcnt, data)`, then one write command
with the data block and the MAC block.  `copy(macPadd[:], macRaw[:])`
into a zero `[16]byte` pads the 8-byte MAC with zeros. -/
def WriteWithMac (E : List Nat → List Nat → List Nat) (SK RC : List Nat)
    (tr : List Nat → List Nat) (data : Block) : Option FErr :=
  match ReadWithMac E SK RC tr [AddressWCNT] with
  | (_, some e) => some e
  | (resp?, none) =>
    let resp := resp?.getD []
    let wcnt := (resp.getD 0 ⟨0, []⟩).Data.take 3
    let macRaw := GenWriteMac E SK RC wcnt data
    let macPadd := macRaw.take 16 ++ List.replicate (16 - macRaw.length) 0
    Write tr [data, ⟨AddressMAC_A, macPadd⟩]

/-- Service codes (lines 445-448). -/
def ServiceRW : Nat := 0x0009

/-- `(*Card).SetService` (lines 450-465); the little-endian 16-bit
service code is appended to the fixed 5-byte header. -/
def SetService (tr : List Nat → List Nat) (service : Nat) : Option FErr :=
  let command := [0xFF, 0xA4, 0x00, 0x01, 0x02, service % 256, service / 256 % 256]
  let resp := tr command
  if statusOk resp then none
  else if statusNoResponse resp then some FErr.noResponse
  else some FErr.unknown

/-- The fields of the Go `Card` struct other than the transport handle.
Go's zero value for `[16]byte` is all zeros. -/
structure CardState where
  CK : List Nat
  SK : List Nat
  RC : List Nat
  ID : List Nat
deriving DecidableEq, Repr

/-- `NewFelicaCard` (lines 309-358) over an abstract transport.
`rcRand` stands for the bytes `crypto/rand` put into `c.RC` (the
`rand.Read` success path); `provider` is the `MasterKeyProvider`, `none`
when the Go caller passes `nil`.  Error wrapping by `fmt.Errorf("…%w")`
keeps the underlying error value, which is what the model returns. -/
def NewFelicaCard (E : List Nat → List Nat → List Nat)
    (tr : List Nat → List Nat) (rcRand : List Nat)
    (provider : Option (List Nat → Option (List Nat))) :
    Option CardState × Option FErr :=
  match SetService tr ServiceRW with
  | some e => (none, some e)
  | none =>
    let c : CardState :=
      { CK := List.replicate 16 0, SK := List.replicate 16 0,
        RC := rcRand, ID := List.replicate 16 0 }
    match Write tr [⟨0x80, c.RC⟩] with
    | some e => (none, some e)
    | none =>
      match Read tr [AddressID, AddressCKV, AddressMAC_A] with
      | Except.error e => (none, some e)
      | Except.ok resp =>
        let c := { c with ID := (resp.getD 0 ⟨0, []⟩).Data }
        match provider with
        | none => (some c, none)
        | some mkp =>
          match mkp ((resp.getD 1 ⟨0, []⟩).Data.take 2) with
          | none => (some c, some FErr.masterKeyNil)
          | some masterKey =>
            let c := { c with CK := GenCardKey E masterKey c.ID }
            let c := { c with SK := GenSessionKey E c.CK c.RC }
            let mac := GenReadMac E c.SK c.RC resp
            if mac = (resp.getD 2 ⟨0, []⟩).Data.take 8 then (some c, none)
            else (some c, some FErr.macNotMatched)

/-- The descriptor indices written by the first loop of `GenReadMac`:
positions `2*i` and `2*i+1` of the 8-byte chunk for each block `i`. -/
def readMacDescIndices (blocks : List Block) : List Nat :=
  (List.range blocks.length).flatMap (fun i => [2 * i, 2 * i + 1])

/-- Modelled from the spec (section 4.2): the triple-key expansion,
`K_rev[8:16] ‖ K_rev[0:8] ‖ K_rev[8:16]` of the byte-reversed key. -/
def tripleKeyExpand (K : List Nat) : List Nat :=
  let kr := K.reverse
  kr.drop 8 ++ kr.take 8 ++ kr.drop 8

/-- Modelled from the spec (section 4.4, read MAC): an 8-byte descriptor
with two bytes `(address, 0x00)` per block being read and unused slots
filled with `0xFF`. -/
def specReadDescriptor (blocks : List Block) : List Nat :=
  (List.range 4).flatMap (fun i =>
    match blocks.get? i with
    | some b => [b.Address, 0x00]
    | none => [0xFF, 0xFF])

end Felica

namespace Felica

/-! Helper lemmas shared by the claim theorems. -/

lemma land_eq_zero (x y : Nat) (hy : y ≤ 1) (hx : x % 2 = 0) : x &&& y = 0 := by
  interval_cases y
  · simp
  · simpa [Nat.and_one_is_mod] using hx

lemma shift_land_eq_zero (x y : Nat) (hy : y < 256) :
    ((x <<< 1) % 256) &&& (y >>> 7) = 0 := by
  refine land_eq_zero _ _ ?_ ?_
  · rw [Nat.shiftRight_eq_div_pow]; omega
  · rw [Nat.shiftLeft_eq]; omega

lemma doubleStep_char (b0 b1 b2 b3 b4 b5 b6 b7 : Nat)
    (h1 : b1 < 256) (h2 : b2 < 256) (h3 : b3 < 256) (h4 : b4 < 256)
    (h5 : b5 < 256) (h6 : b6 < 256) (h7 : b7 < 256) :
    doubleStep [b0, b1, b2, b3, b4, b5, b6, b7] =
      [0, 0, 0, 0, 0, 0, 0,
       if b0 &&& 0x80 ≠ 0 then ((b7 <<< 1) % 256) ^^^ 0x1b else (b7 <<< 1) % 256] := by
  simp only [doubleStep]
  rw [shift_land_eq_zero _ _ h1, shift_land_eq_zero _ _ h2, shift_land_eq_zero _ _ h3,
    shift_land_eq_zero _ _ h4, shift_land_eq_zero _ _ h5, shift_land_eq_zero _ _ h6,
    shift_land_eq_zero _ _ h7]
  norm_num [Nat.shiftLeft_eq]

lemma getD_take (l : List Nat) (i n : Nat) (h : i < n) :
    (l.take n).getD i 0 = l.getD i 0 := by
  simp only [List.getD_eq_getElem?_getD, List.getElem?_take, h, if_pos]

lemma pad_eq (l : List Nat) (h : l.length = 8) :
    l.take 16 ++ List.replicate (16 - l.length) 0 = l ++ List.replicate 8 0 := by
  rw [List.take_of_length_le (by omega), h]

lemma foldl_cipher_length (cipher : List Nat → List Nat)
    (hE : ∀ b, (cipher b).length = 8) :
    ∀ (data : List (List Nat)) (chain : List Nat), data ≠ [] →
      (data.foldl (fun c v => cipher (xorB c v.reverse)) chain).length = 8 := by
  intro data
  induction data with
  | nil => intro chain h; exact absurd rfl h
  | cons v rest ih =>
    intro chain _
    rcases rest with _ | ⟨w, t⟩
    · simpa using hE _
    · exact ih _ (by simp)

lemma genMac_length (E : List Nat → List Nat → List Nat) (SK RC : List Nat)
    (data : List (List Nat)) (hE : ∀ k b, (E k b).length = 8) (hd : data ≠ []) :
    (GenMac E SK RC data).length = 8 := by
  unfold GenMac
  simpa using foldl_cipher_length _ (fun b => hE _ b) data _ hd

lemma setService_err (tr : List Nat → List Nat) (s : Nat) (e : FErr)
    (h : SetService tr s = some e) : e = FErr.noResponse ∨ e = FErr.unknown := by
  simp only [SetService] at h
  split at h
  · exact absurd h (by simp)
  · split at h
    · exact Or.inl (by injection h with h2; exact h2.symm)
    · exact Or.inr (by injection h with h2; exact h2.symm)

lemma write_err (tr : List Nat → List Nat) (data : List Block) (e : FErr)
    (h : Write tr data = some e) : e = FErr.noResponse ∨ e = FErr.unknown := by
  simp only [Write] at h
  split at h
  · exact absurd h (by simp)
  · split at h
    · exact Or.inl (by injection h with h2; exact h2.symm)
    · exact Or.inr (by injection h with h2; exact h2.symm)

lemma read_err (tr : List Nat → List Nat) (address : List Nat) (e : FErr)
    (h : Read tr address = Except.error e) : e = FErr.noResponse ∨ e = FErr.unknown := by
  simp only [Read] at h
  split at h
  · exact absurd h (by simp)
  · split at h
    · exact Or.inl (by injection h with h2; exact h2.symm)
    · exact Or.inr (by injection h with h2; exact h2.symm)

/-- C1, counterexample: the doubling step of the code does not left-shift
with carry propagation as the claim states.  On the buffer
`01 00 00 00 00 00 00 00` the spec-worded `double_gf` yields
`02 00 00 00 00 00 00 00`, while the code yields the all-zero buffer
(the `&` at line 484 zeroes every byte but the last). -/
theorem c1_counterexample :
    doubleStep [1, 0, 0, 0, 0, 0, 0, 0] ≠ double_gf [1, 0, 0, 0, 0, 0, 0, 0] ∧
    doubleStep [1, 0, 0, 0, 0, 0, 0, 0] = [0, 0, 0, 0, 0, 0, 0, 0] ∧
    double_gf [1, 0, 0, 0, 0, 0, 0, 0] = [2, 0, 0, 0, 0, 0, 0, 0] := by
  refine ⟨by decide, by decide, by decide⟩

/-- C1, amended: in the card-key doubling step, each byte `i < 7` is set
to the left-shifted byte ANDed (not ORed) with the carry from byte
`i+1`'s top bit, which always yields zero; the last byte is left-shifted
modulo 256 and XORed with `0x1b` exactly when the original
most-significant bit of the buffer was 1. -/
theorem c1_doubling_step (b0 b1 b2 b3 b4 b5 b6 b7 : Nat)
    (_h0 : b0 < 256) (h1 : b1 < 256) (h2 : b2 < 256) (h3 : b3 < 256)
    (h4 : b4 < 256) (h5 : b5 < 256) (h6 : b6 < 256) (h7 : b7 < 256) :
    doubleStep [b0, b1, b2, b3, b4, b5, b6, b7] =
      [0, 0, 0, 0, 0, 0, 0,
       if b0 &&& 0x80 ≠ 0 then ((b7 <<< 1) % 256) ^^^ 0x1b else (b7 <<< 1) % 256] :=
  doubleStep_char b0 b1 b2 b3 b4 b5 b6 b7 h1 h2 h3 h4 h5 h6 h7

/-- Witness for C1's amended theorem at the buffer
`80 00 00 00 00 00 00 01`: bytes 0-6 become zero and the last byte
becomes `(0x01 << 1) ^ 0x1b = 0x19`. -/
theorem c1_doubling_step_witness :
    doubleStep [0x80, 0, 0, 0, 0, 0, 0, 1] = [0, 0, 0, 0, 0, 0, 0, 0x19] := by
  rw [c1_doubling_step 0x80 0 0 0 0 0 0 1 (by decide) (by decide) (by decide) (by decide)
    (by decide) (by decide) (by decide) (by decide)]
  decide

/-- C2, counterexample: the doubling step of the code is not injective on
8-byte buffers — `01 00 00 00 00 00 00 00` and the all-zero buffer are
distinct yet map to the same output — so it is not a bijection as the
claim states. -/
theorem c2_counterexample :
    doubleStep [1, 0, 0, 0, 0, 0, 0, 0] = doubleStep [0, 0, 0, 0, 0, 0, 0, 0] ∧
    ([1, 0, 0, 0, 0, 0, 0, 0] : List Nat) ≠ [0, 0, 0, 0, 0, 0, 0, 0] := by
  refine ⟨by decide, by decide⟩

/-- C2, amended: the doubling step is not a bijection on 8-byte buffers,
but it does map the all-zero buffer to itself, and the all-zero buffer
is its only fixed point among 8-byte buffers. -/
theorem c2_double_zero_fixed_point :
    doubleStep (List.replicate 8 0) = List.replicate 8 0 ∧
    (∀ b0 b1 b2 b3 b4 b5 b6 b7 : Nat,
      b0 < 256 → b1 < 256 → b2 < 256 → b3 < 256 →
      b4 < 256 → b5 < 256 → b6 < 256 → b7 < 256 →
      doubleStep [b0, b1, b2, b3, b4, b5, b6, b7] = [b0, b1, b2, b3, b4, b5, b6, b7] →
      b0 = 0 ∧ b1 = 0 ∧ b2 = 0 ∧ b3 = 0 ∧ b4 = 0 ∧ b5 = 0 ∧ b6 = 0 ∧ b7 = 0) := by
  refine ⟨by decide, ?_⟩
  intro b0 b1 b2 b3 b4 b5 b6 b7 H0 h1 h2 h3 h4 h5 h6 h7 hfix
  rw [doubleStep_char b0 b1 b2 b3 b4 b5 b6 b7 h1 h2 h3 h4 h5 h6 h7] at hfix
  simp only [List.cons.injEq, and_true] at hfix
  obtain ⟨e0, e1, e2, e3, e4, e5, e6, e7⟩ := hfix
  subst e0 e1 e2 e3 e4 e5 e6
  refine ⟨rfl, rfl, rfl, rfl, rfl, rfl, rfl, ?_⟩
  rw [if_neg (by decide)] at e7
  rw [Nat.shiftLeft_eq] at e7
  omega

/-- Witness for C2's amended theorem at the all-zero buffer. -/
theorem c2_double_zero_fixed_point_witness :
    (0 : Nat) = 0 ∧ (0 : Nat) = 0 ∧ (0 : Nat) = 0 ∧ (0 : Nat) = 0 ∧
    (0 : Nat) = 0 ∧ (0 : Nat) = 0 ∧ (0 : Nat) = 0 ∧ (0 : Nat) = 0 :=
  c2_double_zero_fixed_point.2 0 0 0 0 0 0 0 0 (by decide) (by decide) (by decide)
    (by decide) (by decide) (by decide) (by decide) (by decide) (by decide)

/-- C3: for every master key and card identifier, `GenCardKey` returns
`T1 ‖ T2` with `M1 = id[0:8]`, `M2 = id[8:16] XOR L` (`L` the doubled
encryption of the zero block), `T1 = encrypt(M1)`,
`C2 = encrypt(M1 with bit 0x80 of its first byte flipped)` and
`T2 = encrypt(C2 XOR M2)` — every encryption a single-block application
of the cipher built from the 24-byte master key without expansion. -/
theorem c3_gen_card_key (E : List Nat → List Nat → List Nat) (mk id : List Nat) :
    GenCardKey E mk id =
      E mk (id.take 8) ++
        E mk (xorB (E mk ((id.take 8).set 0 ((id.take 8).getD 0 0 ^^^ 0x80)))
          (xorB (id.drop 8) (doubleStep (E mk (List.replicate 8 0))))) := rfl

/-- C4: for every card key and challenge, `GenSessionKey` returns
`reverse(e1) ‖ reverse(e2)` where the cipher key is the triple-key
expansion of the byte-reversed CK, `e1 = encrypt(reverse(RC[0:8]))` and
`e2 = encrypt(e1 XOR reverse(RC[8:16]))`. -/
theorem c4_gen_session_key (E : List Nat → List Nat → List Nat) (CK RC : List Nat) :
    GenSessionKey E CK RC =
      (E (tripleKeyExpand CK) ((RC.take 8).reverse)).reverse ++
        (E (tripleKeyExpand CK)
          (xorB (E (tripleKeyExpand CK) ((RC.take 8).reverse))
            ((RC.drop 8).reverse))).reverse := rfl

/-- C5: for every session key, challenge and chunk sequence, `GenMac`
starts the chain at `reverse(RC[0:8])`, folds
`chain = encrypt(chain XOR reverse(v))` over the chunks in the given
order under the triple-key expansion of SK, and returns the reversed
final chain. -/
theorem c5_gen_mac_chain (E : List Nat → List Nat → List Nat)
    (SK RC : List Nat) (data : List (List Nat)) :
    GenMac E SK RC data =
      (data.foldl (fun chain v => E (tripleKeyExpand SK) (xorB chain v.reverse))
        ((RC.take 8).reverse)).reverse := rfl

/-- C6: for every block list of length at most 4, `GenReadMac` feeds
`GenMac` the 8-byte descriptor (initialised to `0xFF`, slot `i` holding
`(address of block i, 0x00)`) followed by the two 8-byte halves of each
block's payload in read order, stopping before the first block whose
address is the MAC-storage address `0x91`. -/
theorem c6_gen_read_mac (E : List Nat → List Nat → List Nat)
    (SK RC : List Nat) (blocks : List Block) (h : blocks.length ≤ 4) :
    GenReadMac E SK RC blocks =
      GenMac E SK RC (specReadDescriptor blocks ::
        (blocks.takeWhile (fun v => v.Address ≠ AddressMAC_A)).flatMap
          (fun v => [v.Data.take 8, v.Data.drop 8])) := by
  rcases blocks with _ | ⟨a, _ | ⟨b, _ | ⟨c, _ | ⟨d, _ | ⟨e, t⟩⟩⟩⟩⟩
  · rfl
  · rfl
  · rfl
  · rfl
  · rfl
  · simp at h

/-- Witness for C6 on a one-block read. -/
theorem c6_gen_read_mac_witness :
    GenReadMac (fun _ b => b.reverse) (List.replicate 16 0) (List.replicate 16 0)
        [⟨0x82, List.replicate 16 3⟩] =
      GenMac (fun _ b => b.reverse) (List.replicate 16 0) (List.replicate 16 0)
        (specReadDescriptor [⟨0x82, List.replicate 16 3⟩] ::
          (([⟨0x82, List.replicate 16 3⟩] : List Block).takeWhile
              (fun v => v.Address ≠ AddressMAC_A)).flatMap
            (fun v => [v.Data.take 8, v.Data.drop 8])) :=
  c6_gen_read_mac _ _ _ _ (by decide)

/-- C7: when the authenticated read of the write-counter address
succeeds with response `resp`, `WriteWithMac` issues exactly one write
command carrying the data block and a MAC-storage block (address
`0x91`) whose payload is the 8-byte write MAC — the chained MAC over the
descriptor `[wcnt0, wcnt1, wcnt2, 0x00, address, 0x00, 0x91, 0x00]` and
the two halves of the payload — zero-padded to 16 bytes. -/
theorem c7_write_with_mac (E : List Nat → List Nat → List Nat)
    (SK RC : List Nat) (tr : List Nat → List Nat) (block : Block) (resp : List Block)
    (hE : ∀ k b, (E k b).length = 8)
    (hread : ReadWithMac E SK RC tr [AddressWCNT] = (some resp, none)) :
    WriteWithMac E SK RC tr block =
      Write tr [block, ⟨AddressMAC_A,
        GenMac E SK RC
          [[(resp.getD 0 ⟨0, []⟩).Data.getD 0 0, (resp.getD 0 ⟨0, []⟩).Data.getD 1 0,
            (resp.getD 0 ⟨0, []⟩).Data.getD 2 0, 0x00, block.Address, 0x00, 0x91, 0x00],
           block.Data.take 8, block.Data.drop 8] ++ List.replicate 8 0⟩] := by
  unfold WriteWithMac
  rw [hread]
  simp only [Option.getD_some, GenWriteMac]
  rw [pad_eq]
  · rw [getD_take _ 0 3 (by omega), getD_take _ 1 3 (by omega), getD_take _ 2 3 (by omega)]
  · exact genMac_length E SK RC _ hE (by simp)

/-- Witness for C7 with a constant-zero cipher and a transport whose
every response is 32 zero bytes followed by the success status. -/
theorem c7_write_with_mac_witness :
    WriteWithMac (fun _ _ => List.replicate 8 0) (List.replicate 16 0) (List.replicate 16 0)
        (fun _ => List.replicate 32 0 ++ [0x90, 0x00]) ⟨0x04, List.replicate 16 7⟩ =
      Write (fun _ => List.replicate 32 0 ++ [0x90, 0x00])
        [⟨0x04, List.replicate 16 7⟩, ⟨AddressMAC_A,
          GenMac (fun _ _ => List.replicate 8 0) (List.replicate 16 0) (List.replicate 16 0)
            [[(((readParse [AddressWCNT, AddressMAC_A]
                  (List.replicate 32 0 ++ [0x90, 0x00])).getD 0 ⟨0, []⟩).Data.getD 0 0),
              (((readParse [AddressWCNT, AddressMAC_A]
                  (List.replicate 32 0 ++ [0x90, 0x00])).getD 0 ⟨0, []⟩).Data.getD 1 0),
              (((readParse [AddressWCNT, AddressMAC_A]
                  (List.replicate 32 0 ++ [0x90, 0x00])).getD 0 ⟨0, []⟩).Data.getD 2 0),
              0x00, 0x04, 0x00, 0x91, 0x00],
             (List.replicate 16 7).take 8, (List.replicate 16 7).drop 8]
            ++ List.replicate 8 0⟩] :=
  c7_write_with_mac (fun _ _ => List.replicate 8 0) (List.replicate 16 0)
    (List.replicate 16 0) (fun _ => List.replicate 32 0 ++ [0x90, 0x00])
    ⟨0x04, List.replicate 16 7⟩
    (readParse [AddressWCNT, AddressMAC_A] (List.replicate 32 0 ++ [0x90, 0x00]))
    (fun _ _ => rfl) (by decide)

/-- C8, counterexample: the claim quantifies over every address list,
but with the concrete 4-address list `[01 02 03 04]` a successful read
returns 5 blocks (the MAC address is appended), and the descriptor loop
of `GenReadMac` then writes position `2*4 = 8` of the 8-byte first
chunk — out of range for the Go `[8]byte` array, a runtime panic — so
the program does not return the claimed `(data, error)` pair there. -/
theorem c8_counterexample :
    (8 : Nat) ∈ readMacDescIndices
      (readParse ([0x01, 0x02, 0x03, 0x04] ++ [AddressMAC_A]) (List.replicate 82 0)) ∧
    ¬ (8 : Nat) < 8 := by
  refine ⟨by decide, by decide⟩

/-- C8, amended: for every list of at most 3 caller addresses (the range
documented at the call site, within which the descriptor writes stay in
bounds), when the underlying read of `address ++ [0x91]` succeeds with
blocks `resp`, `ReadWithMac` recomputes the read MAC over `resp` and
compares it with the first 8 bytes of the final (MAC) block: on a match
it returns the data with no error, and on a mismatch it returns the
`MacMismatch` error together with the same, non-nil data. -/
theorem c8_read_with_mac (E : List Nat → List Nat → List Nat)
    (SK RC : List Nat) (tr : List Nat → List Nat) (address : List Nat) (resp : List Block)
    (_haddr : address.length ≤ 3)
    (hread : Read tr (address ++ [AddressMAC_A]) = Except.ok resp) :
    (GenReadMac E SK RC resp = (resp.getLast?.getD ⟨0, []⟩).Data.take 8 →
      ReadWithMac E SK RC tr address = (some resp, none)) ∧
    (GenReadMac E SK RC resp ≠ (resp.getLast?.getD ⟨0, []⟩).Data.take 8 →
      ReadWithMac E SK RC tr address = (some resp, some FErr.macNotMatched)) := by
  unfold ReadWithMac
  rw [hread]
  constructor <;> intro hmac
  · simp [hmac]
  · simp [hmac]

/-- Witness for C8, matching branch, with a constant-zero cipher. -/
theorem c8_read_with_mac_witness :
    ReadWithMac (fun _ _ => List.replicate 8 0) (List.replicate 16 0) (List.replicate 16 0)
        (fun _ => List.replicate 32 0 ++ [0x90, 0x00]) [0x82] =
      (some (readParse [0x82, AddressMAC_A] (List.replicate 32 0 ++ [0x90, 0x00])), none) :=
  (c8_read_with_mac (fun _ _ => List.replicate 8 0) (List.replicate 16 0)
    (List.replicate 16 0) (fun _ => List.replicate 32 0 ++ [0x90, 0x00]) [0x82]
    (readParse [0x82, AddressMAC_A] (List.replicate 32 0 ++ [0x90, 0x00]))
    (by decide) (by decide)).1 (by decide)

/-- C9: the descriptor writes of `GenReadMac` touch positions `2*i` and
`2*i+1` of the 8-byte first chunk, all in bounds exactly when the block
list has at most 4 entries; the block list `ReadWithMac` builds from at
most 3 caller addresses plus the appended MAC address stays within that
bound, while 5 or more blocks reach position 8, out of range. -/
theorem c9_descriptor_bounds :
    (∀ blocks : List Block, (∀ j ∈ readMacDescIndices blocks, j < 8) ↔ blocks.length ≤ 4) ∧
    (∀ address resp : List Nat, address.length ≤ 3 →
      (readParse (address ++ [AddressMAC_A]) resp).length ≤ 4) ∧
    (∀ blocks : List Block, 5 ≤ blocks.length → ∃ j ∈ readMacDescIndices blocks, 8 ≤ j) := by
  refine ⟨?_, ?_, ?_⟩
  · intro blocks
    constructor
    · intro h
      by_contra hlen
      push_neg at hlen
      have h8 : (8 : Nat) ∈ readMacDescIndices blocks := by
        simp only [readMacDescIndices, List.mem_flatMap, List.mem_range]
        exact ⟨4, by omega, by simp⟩
      exact absurd (h 8 h8) (by omega)
    · intro hlen j hj
      simp only [readMacDescIndices, List.mem_flatMap, List.mem_range] at hj
      obtain ⟨i, hi, hcase⟩ := hj
      simp at hcase
      omega
  · intro address resp h
    simp [readParse]
    omega
  · intro blocks h
    refine ⟨8, ?_, by omega⟩
    simp only [readMacDescIndices, List.mem_flatMap, List.mem_range]
    exact ⟨4, by omega, by simp⟩

/-- Witness for C9: a one-block list is in bounds, and a one-address
authenticated read builds at most 4 blocks. -/
theorem c9_descriptor_bounds_witness :
    (∀ j ∈ readMacDescIndices [⟨0x82, []⟩], j < 8) ∧
    (readParse ([0x90] ++ [AddressMAC_A]) (List.replicate 32 0)).length ≤ 4 :=
  ⟨(c9_descriptor_bounds.1 [⟨0x82, []⟩]).mpr (by decide),
   c9_descriptor_bounds.2.1 [0x90] (List.replicate 32 0) (by decide)⟩

/-- C10: with a nil master-key provider, `NewFelicaCard` never returns
the MAC-mismatch error, and when service selection, the challenge write
and the identity read all succeed it returns the session with no error,
the identifier taken from the first block read and the card and session
keys still at their zero values (no derivation performed). -/
theorem c10_nil_provider (E : List Nat → List Nat → List Nat)
    (tr : List Nat → List Nat) (rcRand : List Nat) :
    (NewFelicaCard E tr rcRand none).2 ≠ some FErr.macNotMatched ∧
    (∀ resp : List Block, SetService tr ServiceRW = none →
      Write tr [⟨0x80, rcRand⟩] = none →
      Read tr [AddressID, AddressCKV, AddressMAC_A] = Except.ok resp →
      NewFelicaCard E tr rcRand none =
        (some ⟨List.replicate 16 0, List.replicate 16 0, rcRand,
          (resp.getD 0 ⟨0, []⟩).Data⟩, none)) := by
  constructor
  · unfold NewFelicaCard
    cases hS : SetService tr ServiceRW with
    | some e =>
      rcases setService_err _ _ _ hS with rfl | rfl <;> simp [hS]
    | none =>
      cases hW : Write tr [⟨0x80, rcRand⟩] with
      | some e =>
        rcases write_err _ _ _ hW with rfl | rfl <;> simp [hS, hW]
      | none =>
        cases hR : Read tr [AddressID, AddressCKV, AddressMAC_A] with
        | error e =>
          rcases read_err _ _ _ hR with rfl | rfl <;> simp [hS, hW, hR]
        | ok resp => simp [hS, hW, hR]
  · intro resp hS hW hR
    unfold NewFelicaCard
    simp only [hS, hW, hR]

/-- Witness for C10 with a transport whose every response is 48 zero
bytes followed by the success status. -/
theorem c10_nil_provider_witness :
    NewFelicaCard (fun _ b => b) (fun _ => List.replicate 48 0 ++ [0x90, 0x00])
        (List.replicate 16 0) none =
      (some ⟨List.replicate 16 0, List.replicate 16 0, List.replicate 16 0,
        ((readParse [AddressID, AddressCKV, AddressMAC_A]
            (List.replicate 48 0 ++ [0x90, 0x00])).getD 0 ⟨0, []⟩).Data⟩, none) :=
  (c10_nil_provider (fun _ b => b) (fun _ => List.replicate 48 0 ++ [0x90, 0x00])
    (List.replicate 16 0)).2
    (readParse [AddressID, AddressCKV, AddressMAC_A] (List.replicate 48 0 ++ [0x90, 0x00]))
    (by decide) (by decide) (by decide)

end Felica
